import Mathlib

/-!
Verification of the rivulet async circular-buffer core.

The definitions below are a shallow embedding of the Rust sources:
* `Spsc.*` embeds `src/buffer/spsc.rs` (single-producer single-consumer buffer);
* `Buf.*` embeds `src/buffer/mod.rs` (shared state and the SPMC source/sink
  implementation).

Machine integers (`usize`) are modelled as `Nat`; all cursor arithmetic in the
source is explicitly `% size`, which is mirrored literally.  Async channel
interaction (`try_send` / `recv` on the tokio capacity-1 channels) is modelled
sequentially: a boolean flag records whether the counterparty endpoint has been
dropped (its channel ends are closed), and a `pending` fuel counts queued
wakeup signals still in the receiving channel.  An `await` that could only be
woken by concurrent counterparty progress is modelled as a `suspend` result.
Rust `assert!` failures are modelled as a `panic` result, and returning `None`
from the async functions (the end-of-stream / closed result) as `closed`.
-/

namespace Rivulet

/-! ### State of the SPSC buffer, from `src/buffer/spsc.rs` -/

namespace Spsc

/-- The `State<T>` struct of `spsc.rs`: capacity `size` (one slot reserved),
and the two cursors.  The element storage itself is not needed for the
cursor-level claims. -/
structure State where
  size : Nat
  head : Nat
  tail : Nat
deriving Repr, DecidableEq

/-- Function `State::advance_tail`: `tail <- (tail + advance) % size`. -/
def State.advance_tail (st : State) (advance : Nat) : State :=
  { st with tail := (st.tail + advance) % st.size }

/-- Function `State::advance_head`: `head <- (head + advance) % size`. -/
def State.advance_head (st : State) (advance : Nat) : State :=
  { st with head := (st.head + advance) % st.size }

/-- Function `State::readable_len`: `(tail + size - head) % size`. -/
def State.readable_len (st : State) : Nat :=
  (st.tail + st.size - st.head) % st.size

/-- Function `State::writable_len`: `size - readable_len - 1`. -/
def State.writable_len (st : State) : Nat :=
  st.size - st.readable_len - 1

/-- Constructor `State::new(min_size)`: the backing `Buffer::uninitialized(2*(min_size+1))`
allocates `allocLen ≥ 2*(min_size+1)` slots (the allocator may round up), and
the ring capacity is `buffer.len() / 2`; both cursors start at 0. -/
def State.new (minSize allocLen : Nat) : State :=
  { size := allocLen / 2, head := 0, tail := 0 }

/-- The cursor-relevant part of `BufferSink<T>`: the shared state and the
current grant length `size`. -/
structure BufferSink where
  state : State
  size : Nat
deriving Repr, DecidableEq

/-- The cursor-relevant part of `BufferSource<T>`. -/
structure BufferSource where
  state : State
  size : Nat
deriving Repr, DecidableEq

/-- The `buffer(min_size)` constructor: asserts `min_size > 0` (`Option.none`
models the panic), builds one shared `State`, and returns the sink/source pair
with grant length 0.  `allocLen` is the actual allocation of the backing
mirrored buffer. -/
def buffer (minSize allocLen : Nat) : Option (BufferSink × BufferSource) :=
  if minSize > 0 then
    let st := State.new minSize allocLen
    some ({ state := st, size := 0 }, { state := st, size := 0 })
  else
    none

/-- Outcome of `BufferSink::advance`.  `panic` models an `assert!` failure,
`closed` models returning `None` (the try-send found the source's channel
closed), `suspend` models parking in the wait loop with no counterparty able
to make progress, and `ok` models `Some(BufferSink { size, .. })`. -/
inductive SinkAdvanceResult
  | panic
  | closed (st : State)
  | suspend (st : State)
  | ok (st : State) (size : Nat)
deriving Repr, DecidableEq

/-- The shared state recorded in a non-panicking `BufferSink::advance`
outcome. -/
def SinkAdvanceResult.state? : SinkAdvanceResult → Option State
  | .panic => Option.none
  | .closed st => some st
  | .suspend st => some st
  | .ok st _ => some st

/-- The sink's wait loop (`while writable_len < size { recv.await? }`),
run sequentially: each queued wakeup in `pending` is consumed without any
counterparty progress; when the queue is empty the task would suspend.
(The `recv` cannot return `None` here: a dropped source was already detected
by the preceding `try_send`.) -/
def sinkWait (st : State) (size : Nat) : Nat → SinkAdvanceResult
  | 0 => if st.writable_len < size then .suspend st else .ok st size
  | p + 1 => if st.writable_len < size then sinkWait st size p else .ok st size

/-- Function `BufferSink::advance(advance, size)` from `spsc.rs`, sequentially:
assert `advance ≤ self.size` and `size ≤ state.size - 1`; advance the tail;
`try_send` to the source and return `None` if its channel is closed
(`sourceDropped`); otherwise run the wait loop. -/
def BufferSink.advance (snk : BufferSink) (advance size : Nat)
    (sourceDropped : Bool) (pending : Nat) : SinkAdvanceResult :=
  if advance > snk.size then .panic
  else if size > snk.state.size - 1 then .panic
  else
    let st := snk.state.advance_tail advance
    if sourceDropped then .closed st
    else sinkWait st size pending

/-- Outcome of `BufferSource::advance`, with the same reading as
`SinkAdvanceResult`; `closed` models returning `None` (end of stream). -/
inductive SourceAdvanceResult
  | panic
  | closed (st : State)
  | suspend (st : State)
  | ok (st : State) (size : Nat)
deriving Repr, DecidableEq

/-- The shared state recorded in a non-panicking `BufferSource::advance`
outcome. -/
def SourceAdvanceResult.state? : SourceAdvanceResult → Option State
  | .panic => Option.none
  | .closed st => some st
  | .suspend st => some st
  | .ok st _ => some st

/-- The source's wait loop (`while readable_len < size { if recv is None
{ return short or None } }`), run sequentially: queued wakeups in `pending`
are consumed first; with the queue empty, `recv` returns `None` exactly when
the sink has been dropped, in which case the source returns `None` if nothing
is readable and otherwise a short view of `min(available, size)` elements. -/
def sourceWait (st : State) (size : Nat) (sinkDropped : Bool) :
    Nat → SourceAdvanceResult
  | 0 =>
    if st.readable_len < size then
      if sinkDropped then
        let available := st.readable_len
        if available = 0 then .closed st
        else .ok st (min available size)
      else .suspend st
    else .ok st size
  | p + 1 =>
    if st.readable_len < size then sourceWait st size sinkDropped p
    else .ok st size

/-- Function `BufferSource::advance(advance, size)` from `spsc.rs`, sequentially:
assert `advance ≤ self.size` and `size ≤ state.size - 1`; advance the head;
`try_send` to the sink with the result ignored; run the wait loop. -/
def BufferSource.advance (src : BufferSource) (advance size : Nat)
    (sinkDropped : Bool) (pending : Nat) : SourceAdvanceResult :=
  if advance > src.size then .panic
  else if size > src.state.size - 1 then .panic
  else
    let st := src.state.advance_head advance
    sourceWait st size sinkDropped pending

end Spsc

/-! ### Shared state of `src/buffer/mod.rs` (used by the SPMC endpoints) -/

namespace Buf

/-- The `State<T>` struct of `mod.rs`. -/
structure State where
  size : Nat
  head : Nat
  tail : Nat
deriving Repr, DecidableEq

/-- Function `State::advance_value`: the new value `(value + advance) % size` stored
into one of the cursors. -/
def State.advance_value (st : State) (advance value : Nat) : Nat :=
  (value + advance) % st.size

/-- Function `State::distance(first, second) = (second + size - first) % size`. -/
def State.distance (st : State) (first second : Nat) : Nat :=
  (second + st.size - first) % st.size

/-- Function `State::readable_len = distance(head, tail)`. -/
def State.readable_len (st : State) : Nat :=
  st.distance st.head st.tail

/-- Function `State::writable_len = size - readable_len - 1`. -/
def State.writable_len (st : State) : Nat :=
  st.size - st.readable_len - 1

/-- Constant `std::usize::MAX`, the initial value of `earliest_head` and
`smallest_distance` in the global-head update loop. -/
def usizeMax : Nat := 2 ^ 64 - 1

/-- The shared data reachable from an SPMC source clone-set: the values of
the per-consumer head atomics in the shared `heads` list, the ids of the
senders in the shared sender list, and whether the weak reference to that
list still upgrades (the sink keeps it alive). -/
structure SpmcShared where
  heads : List Nat
  senders : List Nat
  sendersAlive : Bool
deriving Repr, DecidableEq

/-- Result of `Clone for SourceImpl`: the new personal head value, the
updated shared data, and the capacity of the freshly created notification
channel. -/
structure CloneResult where
  newHead : Nat
  shared : SpmcShared
  newChannelCapacity : Nat
deriving Repr, DecidableEq

/-- Implementation `Clone for SourceImpl` from `mod.rs`: copy the cloner's current personal
head into a fresh atomic, push it onto the shared heads list (under the write
lock), create a `channel(1)`, and push its sender onto the shared sender list
when the weak reference still upgrades. -/
def cloneSource (shared : SpmcShared) (myHead newSenderId : Nat) :
    CloneResult :=
  let head := myHead
  let heads := shared.heads ++ [head]
  let senders :=
    if shared.sendersAlive then shared.senders ++ [newSenderId]
    else shared.senders
  { newHead := head
    shared := { shared with heads := heads, senders := senders }
    newChannelCapacity := 1 }

/-- The `for head in heads.iter()` loop of `SourceImpl::advance`: fold over
the heads carrying `(earliest_head, smallest_distance)`, replacing the
accumulator whenever a strictly smaller distance from `currentHead` is
found. -/
def findEarliest (st : State) (currentHead : Nat) :
    List Nat → Nat × Nat → Nat × Nat
  | [], acc => acc
  | h :: rest, acc =>
    let d := st.distance currentHead h
    if d < acc.2 then findEarliest st currentHead rest (h, d)
    else findEarliest st currentHead rest acc

/-- The global-head maintenance loop (lines 207-226 of `mod.rs`), run
sequentially: the `compare_and_swap` succeeds on the first iteration, storing
the head of smallest distance from the current global head (the accumulator
starts at `usize::MAX`). -/
def updateGlobalHead (st : State) (heads : List Nat) : State :=
  let currentHead := st.head
  let result := findEarliest st currentHead heads (usizeMax, usizeMax)
  { st with head := result.1 }

/-- An SPMC source clone-set state: the shared ring state plus the values of
all personal heads (the calling source's is at index `myIdx` in the
theorems). -/
structure SpmcState where
  state : State
  heads : List Nat
deriving Repr, DecidableEq

/-- Outcome of `SourceImpl::advance` in multi-source mode.  `panic` models an
`assert!` failure, `closed` models returning `None` (the computed view size
was 0), `suspend` models parking in the wait loop, `ok` models returning a
view of the recorded size. -/
inductive SpmcAdvanceResult
  | panic
  | closed (gs : SpmcState)
  | suspend (gs : SpmcState)
  | ok (gs : SpmcState) (size : Nat)
deriving Repr, DecidableEq

/-- The state recorded in a non-panicking `SourceImpl::advance` outcome. -/
def SpmcAdvanceResult.state? : SpmcAdvanceResult → Option SpmcState
  | .panic => Option.none
  | .closed gs => some gs
  | .suspend gs => some gs
  | .ok gs _ => some gs

/-- Lines 248-260 of `mod.rs`: compute `size = min(distance(head, tail),
size)` and return `None` when it is zero, else the view of that size. -/
def spmcFinish (gs : SpmcState) (head size : Nat) : SpmcAdvanceResult :=
  let sz := min (gs.state.distance head gs.state.tail) size
  if sz = 0 then .closed gs else .ok gs sz

/-- The SPMC source wait loop (`while distance(head, tail) < size { if recv
is None { break } }`), run sequentially: queued wakeups in the fuel are
consumed first; with the queue empty, `recv` returns `None` exactly when the
sink has been dropped, which breaks out to the final size computation;
otherwise the task suspends. -/
def spmcWait (gs : SpmcState) (head size : Nat) (sinkDropped : Bool) :
    Nat → SpmcAdvanceResult
  | 0 =>
    if gs.state.distance head gs.state.tail < size then
      if sinkDropped then spmcFinish gs head size else .suspend gs
    else spmcFinish gs head size
  | p + 1 =>
    if gs.state.distance head gs.state.tail < size then
      spmcWait gs head size sinkDropped p
    else spmcFinish gs head size

/-- Function `SourceImpl::advance(advance, size)` from `mod.rs` in multi-source mode,
sequentially: assert `advance ≤ self.size` and `size ≤ state.size - 1`;
advance the personal head at index `i` with `advance_value`; assert the heads
list non-empty; run the global-head CAS loop; reload the personal head;
`try_send` to the sink with the result ignored; run the wait loop and the
final size computation. -/
def SourceImpl.advanceMulti (gs : SpmcState) (i selfSize advance size : Nat)
    (sinkDropped : Bool) (pending : Nat) : SpmcAdvanceResult :=
  if advance > selfSize then .panic
  else if size > gs.state.size - 1 then .panic
  else
    let myHead := gs.state.advance_value advance (gs.heads.getD i 0)
    let heads := gs.heads.set i myHead
    if heads.isEmpty then .panic
    else
      let st := updateGlobalHead gs.state heads
      spmcWait { state := st, heads := heads } myHead size sinkDropped pending

end Buf

/-! ### The error kind enum of `rivulet-core/src/stream.rs` and the polled
grant interface -/

namespace Stream

/-- The `Error` enum of `rivulet-core/src/stream.rs`: `Closed`, `Overflow`,
`Other`. -/
inductive Error
  | closed
  | overflow
  | other
deriving Repr, DecidableEq

end Stream

/-- Outcome of polling a grant, `Poll<Result<(), Error>>`, with the resulting
grant length recorded on success. -/
inductive GrantPoll
  | pending
  | ready_ok (grantLen : Nat)
  | ready_err (e : Stream.Error)
deriving Repr, DecidableEq

/-- Modelled from the spec: `Sink::poll_grant` of the circular buffer
(spec section 4.5); the implementing file (`circular_buffer.rs`, declared in
`src/lib.rs`) is not under `src/`.  Steps: reject `count > C-1` with an
overflow error; when `writable ≥ count`, grant all of `writable` (over-grant)
and return ready; otherwise register the waker and return pending. -/
def sinkPollGrant (st : Spsc.State) (count : Nat) : GrantPoll :=
  if count > st.size - 1 then .ready_err .overflow
  else if count ≤ st.writable_len then .ready_ok st.writable_len
  else .pending

/-- Modelled from the spec: `Source::poll_grant` of the circular buffer
(spec section 4.5), the mirror of the sink using `readable`; when the sink is
known closed and `readable < count`, a short grant is returned instead of
pending. -/
def sourcePollGrant (st : Spsc.State) (count : Nat) (sinkClosed : Bool) :
    GrantPoll :=
  if count > st.size - 1 then .ready_err .overflow
  else if count ≤ st.readable_len then .ready_ok st.readable_len
  else if sinkClosed then .ready_ok st.readable_len
  else .pending

/-! ### Arithmetic helpers for the ring cursor computations -/

/-- Closed form of the ring distance `(t + C - h) % C` for in-range cursors. -/
theorem readable_cases (C h t : Nat) (hC : 0 < C) (hh : h < C) (ht : t < C) :
    (t + C - h) % C = if h ≤ t then t - h else t + C - h := by
  split
  · have e : t + C - h = (t - h) + C := by omega
    rw [e, Nat.add_mod_right, Nat.mod_eq_of_lt (by omega)]
  · exact Nat.mod_eq_of_lt (by omega)

/-- Closed form of `x % C` for `x < 2C`. -/
theorem mod_two_cases (C x : Nat) (hC : 0 < C) (hx : x < 2 * C) :
    x % C = if x < C then x else x - C := by
  split
  · exact Nat.mod_eq_of_lt (by omega)
  · rw [Nat.mod_eq_sub_mod (by omega), Nat.mod_eq_of_lt (by omega)]

/-- Advancing the tail by `n` (with room for it) grows the ring distance by
exactly `n`. -/
theorem dist_tail_advance (C h t n : Nat) (hC : 0 < C) (hh : h < C) (ht : t < C)
    (hn : (t + C - h) % C + n < C) :
    ((t + n) % C + C - h) % C = (t + C - h) % C + n := by
  have hr := readable_cases C h t hC hh ht
  have hn' : n < C := by omega
  have h2 := mod_two_cases C (t + n) hC (by omega)
  have ht' : (t + n) % C < C := Nat.mod_lt _ hC
  have hr' := readable_cases C h ((t + n) % C) hC hh ht'
  rw [hr']
  rw [hr] at hn ⊢
  rw [h2]
  split_ifs at * <;> omega

/-- Advancing the head by `n` (not past the tail) shrinks the ring distance by
exactly `n`. -/
theorem dist_head_advance (C h t n : Nat) (hC : 0 < C) (hh : h < C) (ht : t < C)
    (hn : n ≤ (t + C - h) % C) :
    (t + C - (h + n) % C) % C = (t + C - h) % C - n := by
  have hr := readable_cases C h t hC hh ht
  have hn' : n < C := by
    have : (t + C - h) % C < C := Nat.mod_lt _ hC
    omega
  have h2 := mod_two_cases C (h + n) hC (by omega)
  have hh' : (h + n) % C < C := Nat.mod_lt _ hC
  have hr' := readable_cases C ((h + n) % C) t hC hh' ht
  rw [hr']
  rw [hr] at hn ⊢
  rw [h2]
  split_ifs at * <;> omega

/-! ### Shape lemmas for the modelled wait loops -/

/-- The sink wait loop either suspends or grants, and never changes the
state. -/
theorem sinkWait_shape (st : Spsc.State) (size : Nat) :
    ∀ p, Spsc.sinkWait st size p = .suspend st ∨
      Spsc.sinkWait st size p = .ok st size := by
  intro p
  induction p with
  | zero =>
    by_cases h : st.writable_len < size <;> simp [Spsc.sinkWait, h]
  | succ p ih =>
    by_cases h : st.writable_len < size
    · simpa [Spsc.sinkWait, h] using ih
    · simp [Spsc.sinkWait, h]

/-- Unfolding of the source wait loop at fuel zero. -/
theorem sourceWait_zero_eq (st : Spsc.State) (size : Nat) (d : Bool) :
    Spsc.sourceWait st size d 0 =
      if st.readable_len < size then
        if d then
          if st.readable_len = 0 then .closed st
          else .ok st (min st.readable_len size)
        else .suspend st
      else .ok st size := by
  cases d <;> rfl

/-- Unfolding of the source wait loop at successor fuel. -/
theorem sourceWait_succ_eq (st : Spsc.State) (size : Nat) (d : Bool) (p : Nat) :
    Spsc.sourceWait st size d (p + 1) =
      if st.readable_len < size then Spsc.sourceWait st size d p
      else .ok st size := rfl

/-- The source wait loop never changes the state it reports. -/
theorem sourceWait_state (st : Spsc.State) (size : Nat) (d : Bool) :
    ∀ p, (Spsc.sourceWait st size d p).state? = some st := by
  intro p
  induction p with
  | zero =>
    rw [sourceWait_zero_eq]
    split_ifs <;> simp [Spsc.SourceAdvanceResult.state?]
  | succ p ih =>
    rw [sourceWait_succ_eq]
    split_ifs
    · exact ih
    · simp [Spsc.SourceAdvanceResult.state?]

/-- When enough is readable, the source wait loop grants in full at once. -/
theorem sourceWait_ge (st : Spsc.State) (size : Nat) (d : Bool) (p : Nat)
    (hge : size ≤ st.readable_len) :
    Spsc.sourceWait st size d p = .ok st size := by
  cases p <;> simp [Spsc.sourceWait, Nat.not_lt.mpr hge]

/-- When the sink is dropped and not enough is readable, the source wait loop
returns the short-or-closed result regardless of queued wakeups. -/
theorem sourceWait_dropped (st : Spsc.State) (size : Nat)
    (hlt : st.readable_len < size) :
    ∀ p, Spsc.sourceWait st size true p =
      if st.readable_len = 0 then .closed st
      else .ok st (min st.readable_len size) := by
  intro p
  induction p with
  | zero =>
    rw [sourceWait_zero_eq, if_pos hlt, if_pos rfl]
  | succ p ih =>
    rw [sourceWait_succ_eq, if_pos hlt, ih]

/-- When enough room is writable, the sink wait loop grants in full at
once. -/
theorem sinkWait_ge (st : Spsc.State) (size : Nat) (p : Nat)
    (hge : size ≤ st.writable_len) :
    Spsc.sinkWait st size p = .ok st size := by
  cases p <;> simp [Spsc.sinkWait, Nat.not_lt.mpr hge]

/-- Advancing the tail leaves the capacity unchanged. -/
theorem advance_tail_size (st : Spsc.State) (n : Nat) :
    (st.advance_tail n).size = st.size := rfl

/-- Advancing the head leaves the capacity unchanged. -/
theorem advance_head_size (st : Spsc.State) (n : Nat) :
    (st.advance_head n).size = st.size := rfl

/-- Advancing the tail by zero is the identity on in-range states. -/
theorem advance_tail_zero (st : Spsc.State) (ht : st.tail < st.size) :
    st.advance_tail 0 = st := by
  simp [Spsc.State.advance_tail, Nat.mod_eq_of_lt ht]

/-- Advancing the head by zero is the identity on in-range states. -/
theorem advance_head_zero (st : Spsc.State) (hh : st.head < st.size) :
    st.advance_head 0 = st := by
  simp [Spsc.State.advance_head, Nat.mod_eq_of_lt hh]

/-- A non-panicking `BufferSink::advance` always reports the state with the
tail already advanced, whatever the outcome. -/
theorem sinkAdvance_state (st : Spsc.State) (g adv size : Nat) (b : Bool)
    (p : Nat) (hadv : adv ≤ g) (hsz : size ≤ st.size - 1) :
    (Spsc.BufferSink.advance ⟨st, g⟩ adv size b p).state? =
      some (st.advance_tail adv) := by
  have h1 : ¬ adv > g := Nat.not_lt.mpr hadv
  have h2 : ¬ size > st.size - 1 := Nat.not_lt.mpr hsz
  simp only [Spsc.BufferSink.advance, if_neg h1, if_neg h2]
  cases b
  · rcases sinkWait_shape (st.advance_tail adv) size p with h | h <;>
      simp [h, Spsc.SinkAdvanceResult.state?]
  · simp [Spsc.SinkAdvanceResult.state?]

/-- A non-panicking `BufferSource::advance` always reports the state with the
head already advanced, whatever the outcome. -/
theorem sourceAdvance_state (st : Spsc.State) (g adv size : Nat) (b : Bool)
    (p : Nat) (hadv : adv ≤ g) (hsz : size ≤ st.size - 1) :
    (Spsc.BufferSource.advance ⟨st, g⟩ adv size b p).state? =
      some (st.advance_head adv) := by
  have h1 : ¬ adv > g := Nat.not_lt.mpr hadv
  have h2 : ¬ size > st.size - 1 := Nat.not_lt.mpr hsz
  simp only [Spsc.BufferSource.advance, if_neg h1, if_neg h2]
  exact sourceWait_state (st.advance_head adv) size b p

/-! ### C1: occupancy invariant -/

/-- C1: for every buffer state (SPSC `spsc.rs` state or the shared `mod.rs`
state), the writable count equals `C - readable - 1` where
`readable = dist(head, tail)`, hence `readable + writable + 1 = C`. -/
theorem c1_occupancy_invariant (s1 : Spsc.State) (s2 : Buf.State)
    (h1 : 0 < s1.size) (h2 : 0 < s2.size) :
    s1.writable_len = s1.size - s1.readable_len - 1 ∧
    s1.readable_len + s1.writable_len + 1 = s1.size ∧
    s2.readable_len = s2.distance s2.head s2.tail ∧
    s2.writable_len = s2.size - s2.readable_len - 1 ∧
    s2.readable_len + s2.writable_len + 1 = s2.size := by
  have hr1 : s1.readable_len < s1.size := Nat.mod_lt _ h1
  have hr2 : s2.readable_len < s2.size := by
    have : (s2.tail + s2.size - s2.head) % s2.size < s2.size := Nat.mod_lt _ h2
    simpa [Buf.State.readable_len, Buf.State.distance] using this
  refine ⟨rfl, ?_, rfl, rfl, ?_⟩
  · simp only [Spsc.State.writable_len]
    omega
  · simp only [Buf.State.writable_len]
    omega

/-- Witness for C1 at a concrete state. -/
theorem c1_occupancy_invariant_witness :
    (0 < (5 : Nat)) ∧
    ((⟨5, 1, 3⟩ : Spsc.State).writable_len = 5 - (⟨5, 1, 3⟩ : Spsc.State).readable_len - 1 ∧
     (⟨5, 1, 3⟩ : Spsc.State).readable_len + (⟨5, 1, 3⟩ : Spsc.State).writable_len + 1 = 5 ∧
     (⟨7, 4, 2⟩ : Buf.State).readable_len =
       (⟨7, 4, 2⟩ : Buf.State).distance 4 2 ∧
     (⟨7, 4, 2⟩ : Buf.State).writable_len = 7 - (⟨7, 4, 2⟩ : Buf.State).readable_len - 1 ∧
     (⟨7, 4, 2⟩ : Buf.State).readable_len + (⟨7, 4, 2⟩ : Buf.State).writable_len + 1 = 7) :=
  ⟨by decide, c1_occupancy_invariant ⟨5, 1, 3⟩ ⟨7, 4, 2⟩ (by decide) (by decide)⟩

/-- C2: a grant or advance request for more than `C - 1` elements/slots is
rejected — `poll_grant` reports an overflow error (and does not touch the
state, so the caller can retry: the same poll with `count' ≤ C - 1` is not an
overflow), and the corresponding `advance` assertions in `spsc.rs` likewise
fail exactly when the requested view size exceeds `C - 1`. -/
theorem c2_overflow_rejected
    (st : Spsc.State) (count count' g adv : Nat) (b : Bool) (p : Nat)
    (hbig : count > st.size - 1) (hok : count' ≤ st.size - 1)
    (hadv : adv ≤ g) :
    sinkPollGrant st count = .ready_err .overflow ∧
    sourcePollGrant st count b = .ready_err .overflow ∧
    sinkPollGrant st count' ≠ .ready_err .overflow ∧
    sourcePollGrant st count' b ≠ .ready_err .overflow ∧
    Spsc.BufferSink.advance ⟨st, g⟩ adv count b p = .panic ∧
    Spsc.BufferSource.advance ⟨st, g⟩ adv count b p = .panic ∧
    Spsc.BufferSink.advance ⟨st, g⟩ adv count' b p ≠ .panic ∧
    Spsc.BufferSource.advance ⟨st, g⟩ adv count' b p ≠ .panic := by
  have h1 : ¬ adv > g := Nat.not_lt.mpr hadv
  have h2 : ¬ count' > st.size - 1 := Nat.not_lt.mpr hok
  refine ⟨?_, ?_, ?_, ?_, ?_, ?_, ?_, ?_⟩
  · rw [sinkPollGrant, if_pos hbig]
  · rw [sourcePollGrant, if_pos hbig]
  · rw [sinkPollGrant, if_neg h2]
    split_ifs <;> simp
  · rw [sourcePollGrant, if_neg h2]
    split_ifs <;> simp
  · rw [Spsc.BufferSink.advance, if_neg h1, if_pos hbig]
  · rw [Spsc.BufferSource.advance, if_neg h1, if_pos hbig]
  · intro hcontra
    have hs := sinkAdvance_state st g adv count' b p hadv hok
    rw [hcontra] at hs
    simp [Spsc.SinkAdvanceResult.state?] at hs
  · intro hcontra
    have hs := sourceAdvance_state st g adv count' b p hadv hok
    rw [hcontra] at hs
    simp [Spsc.SourceAdvanceResult.state?] at hs

/-- Witness for C2 on a capacity-5 ring: requesting 5 overflows, requesting 4
does not. -/
theorem c2_overflow_rejected_witness :
    ((5 : Nat) > 5 - 1 ∧ (4 : Nat) ≤ 5 - 1 ∧ (0 : Nat) ≤ 0) ∧
    (sinkPollGrant ⟨5, 0, 0⟩ 5 = .ready_err .overflow ∧
     sourcePollGrant ⟨5, 0, 0⟩ 5 false = .ready_err .overflow ∧
     sinkPollGrant ⟨5, 0, 0⟩ 4 ≠ .ready_err .overflow ∧
     sourcePollGrant ⟨5, 0, 0⟩ 4 false ≠ .ready_err .overflow ∧
     Spsc.BufferSink.advance ⟨⟨5, 0, 0⟩, 0⟩ 0 5 false 0 = .panic ∧
     Spsc.BufferSource.advance ⟨⟨5, 0, 0⟩, 0⟩ 0 5 false 0 = .panic ∧
     Spsc.BufferSink.advance ⟨⟨5, 0, 0⟩, 0⟩ 0 4 false 0 ≠ .panic ∧
     Spsc.BufferSource.advance ⟨⟨5, 0, 0⟩, 0⟩ 0 4 false 0 ≠ .panic) :=
  ⟨⟨by decide, by decide, by decide⟩,
   c2_overflow_rejected ⟨5, 0, 0⟩ 5 4 0 0 false 0 (by decide) (by decide)
     (by decide)⟩

/-! ### C6 and C10: the SPSC sink release path -/

/-- C6 counterexample: with the source dropped, the sink's release of 2
elements on a capacity-5 ring returns the `None`/closed result (with the tail
already advanced) — the claim that a dropped source does not make the release
report closed is false at this input. -/
theorem c6_counterexample :
    Spsc.BufferSink.advance ⟨⟨5, 0, 0⟩, 4⟩ 2 0 true 0 =
      Spsc.SinkAdvanceResult.closed ⟨5, 0, 2⟩ := by decide

/-- C6 (amended): the SPSC sink release stores `tail ← (tail+n) mod C` and
then `try_send`s a wakeup to the source; whatever the outcome, the advanced
tail stays committed.  But a closed channel is not ignored here: the call
returns the `None`/closed result exactly when the source has been dropped
(the code comment: if the source is gone there is no point sinking more
data). -/
theorem c6_sink_release_commits_then_signals
    (st : Spsc.State) (g adv size : Nat) (sourceDropped : Bool) (pending : Nat)
    (hadv : adv ≤ g) (hsz : size ≤ st.size - 1) :
    (Spsc.BufferSink.advance ⟨st, g⟩ adv size sourceDropped pending).state? =
      some (st.advance_tail adv) ∧
    (sourceDropped = true →
      Spsc.BufferSink.advance ⟨st, g⟩ adv size sourceDropped pending =
        .closed (st.advance_tail adv)) ∧
    (sourceDropped = false →
      ∀ s, Spsc.BufferSink.advance ⟨st, g⟩ adv size sourceDropped pending ≠
        .closed s) := by
  have h1 : ¬ adv > g := Nat.not_lt.mpr hadv
  have h2 : ¬ size > st.size - 1 := Nat.not_lt.mpr hsz
  refine ⟨sinkAdvance_state st g adv size sourceDropped pending hadv hsz,
    ?_, ?_⟩
  · intro hb
    subst hb
    rw [Spsc.BufferSink.advance, if_neg h1, if_neg h2]
    rfl
  · intro hb
    subst hb
    intro s
    rw [Spsc.BufferSink.advance, if_neg h1, if_neg h2]
    rcases sinkWait_shape (st.advance_tail adv) size pending with h | h <;>
      simp [h]

/-- Witness for C6 (amended) at a concrete sink release. -/
theorem c6_sink_release_commits_then_signals_witness :
    ((1 : Nat) ≤ 2 ∧ (2 : Nat) ≤ 5 - 1) ∧
    ((Spsc.BufferSink.advance ⟨⟨5, 1, 3⟩, 2⟩ 1 2 true 0).state? =
       some (Spsc.State.advance_tail ⟨5, 1, 3⟩ 1) ∧
     ((true : Bool) = true →
       Spsc.BufferSink.advance ⟨⟨5, 1, 3⟩, 2⟩ 1 2 true 0 =
         .closed (Spsc.State.advance_tail ⟨5, 1, 3⟩ 1)) ∧
     ((true : Bool) = false →
       ∀ s, Spsc.BufferSink.advance ⟨⟨5, 1, 3⟩, 2⟩ 1 2 true 0 ≠ .closed s)) :=
  ⟨⟨by decide, by decide⟩,
   c6_sink_release_commits_then_signals ⟨5, 1, 3⟩ 2 1 2 true 0 (by decide)
     (by decide)⟩

/-- C10: in the SPSC sink's advance, the tail moves before the source-closed
check — a call that returns the `None`/closed result because the source was
dropped has already published the released elements: the reported state has
`readable` increased by the advance amount; the closed result does not roll
the commit back. -/
theorem c10_commit_before_closed_check
    (st : Spsc.State) (g adv size pending : Nat)
    (hC : 0 < st.size) (hh : st.head < st.size) (ht : st.tail < st.size)
    (hadv : adv ≤ g) (hsz : size ≤ st.size - 1)
    (hroom : adv ≤ st.writable_len) :
    Spsc.BufferSink.advance ⟨st, g⟩ adv size true pending =
      .closed (st.advance_tail adv) ∧
    (st.advance_tail adv).readable_len = st.readable_len + adv := by
  have h1 : ¬ adv > g := Nat.not_lt.mpr hadv
  have h2 : ¬ size > st.size - 1 := Nat.not_lt.mpr hsz
  constructor
  · rw [Spsc.BufferSink.advance, if_neg h1, if_neg h2]
    rfl
  · have hrb : st.readable_len < st.size := Nat.mod_lt _ hC
    have hfit : st.readable_len + adv < st.size := by
      have := hroom
      simp only [Spsc.State.writable_len] at this
      omega
    simpa [Spsc.State.advance_tail, Spsc.State.readable_len] using
      dist_tail_advance st.size st.head st.tail adv hC hh ht
        (by simpa [Spsc.State.readable_len] using hfit)

/-- Witness for C10: sink release of 2 with the source dropped, on a
capacity-5 ring holding 1 element. -/
theorem c10_commit_before_closed_check_witness :
    ((0 : Nat) < 5 ∧ (0 : Nat) < 5 ∧ (1 : Nat) < 5 ∧ (2 : Nat) ≤ 3 ∧
     (1 : Nat) ≤ 5 - 1 ∧ (2 : Nat) ≤ (⟨5, 0, 1⟩ : Spsc.State).writable_len) ∧
    (Spsc.BufferSink.advance ⟨⟨5, 0, 1⟩, 3⟩ 2 1 true 0 =
       .closed (Spsc.State.advance_tail ⟨5, 0, 1⟩ 2) ∧
     (Spsc.State.advance_tail ⟨5, 0, 1⟩ 2).readable_len =
       (⟨5, 0, 1⟩ : Spsc.State).readable_len + 2) :=
  ⟨⟨by decide, by decide, by decide, by decide, by decide, by decide⟩,
   c10_commit_before_closed_check ⟨5, 0, 1⟩ 3 2 1 0 (by decide) (by decide)
     (by decide) (by decide) (by decide) (by decide)⟩

/-! ### C3: draining after the sink is dropped -/

/-- C3: if the SPSC sink has been dropped while `n > 0` elements are
readable, a source grant for `count > n` completes without suspending with a
short view of exactly `min(readable, count) = n` elements; after those `n`
elements are released, the next grant (for any positive count) returns the
`None`/closed result. -/
theorem c3_drain_then_close
    (st : Spsc.State) (g n count count' pending pending' : Nat)
    (hC : 0 < st.size) (hh : st.head < st.size) (ht : st.tail < st.size)
    (hn : st.readable_len = n) (hpos : 0 < n) (hcount : n < count)
    (hcmax : count ≤ st.size - 1) (hc' : 1 ≤ count')
    (hc'max : count' ≤ st.size - 1) :
    Spsc.BufferSource.advance ⟨st, g⟩ 0 count true pending = .ok st n ∧
    Spsc.BufferSource.advance ⟨st, n⟩ n count' true pending' =
      .closed (st.advance_head n) := by
  have h0g : ¬ (0 : Nat) > g := by omega
  have hcmax' : ¬ count > st.size - 1 := Nat.not_lt.mpr hcmax
  have hle : n ≤ st.readable_len := le_of_eq hn.symm
  have hr2 : (st.advance_head n).readable_len = 0 := by
    show (st.tail + st.size - (st.head + n) % st.size) % st.size = 0
    rw [dist_head_advance st.size st.head st.tail n hC hh ht hle]
    have : st.readable_len = (st.tail + st.size - st.head) % st.size := rfl
    omega
  constructor
  · rw [Spsc.BufferSource.advance, if_neg h0g, if_neg hcmax']
    show Spsc.sourceWait (st.advance_head 0) count true pending = .ok st n
    rw [advance_head_zero st hh,
      sourceWait_dropped st count (by omega) pending, hn,
      if_neg (by omega), Nat.min_eq_left (le_of_lt hcount)]
  · have hnn : ¬ n > n := by omega
    have hc'max' : ¬ count' > st.size - 1 := Nat.not_lt.mpr hc'max
    rw [Spsc.BufferSource.advance, if_neg hnn, if_neg hc'max']
    show Spsc.sourceWait (st.advance_head n) count' true pending' =
      .closed (st.advance_head n)
    rw [sourceWait_dropped (st.advance_head n) count' (by omega) pending',
      if_pos hr2]

/-- Witness for C3: capacity 5, two readable elements, sink dropped; a grant
of 4 returns a short view of 2, and after releasing 2 the next grant of 3
closes. -/
theorem c3_drain_then_close_witness :
    ((0 : Nat) < 5 ∧ (0 : Nat) < 5 ∧ (2 : Nat) < 5 ∧
     (⟨5, 0, 2⟩ : Spsc.State).readable_len = 2 ∧ (0 : Nat) < 2 ∧
     (2 : Nat) < 4 ∧ (4 : Nat) ≤ 5 - 1 ∧ (1 : Nat) ≤ 3 ∧ (3 : Nat) ≤ 5 - 1) ∧
    (Spsc.BufferSource.advance ⟨⟨5, 0, 2⟩, 7⟩ 0 4 true 1 = .ok ⟨5, 0, 2⟩ 2 ∧
     Spsc.BufferSource.advance ⟨⟨5, 0, 2⟩, 2⟩ 2 3 true 0 =
       .closed (Spsc.State.advance_head ⟨5, 0, 2⟩ 2)) :=
  ⟨⟨by decide, by decide, by decide, by decide, by decide, by decide,
    by decide, by decide, by decide⟩,
   c3_drain_then_close ⟨5, 0, 2⟩ 7 2 4 3 1 0 (by decide) (by decide)
     (by decide) (by decide) (by decide) (by decide) (by decide) (by decide)
     (by decide)⟩

/-! ### C7: what grant followed by release actually does to occupancy -/

/-- C7 counterexample: on a capacity-5 ring with 2 readable elements, the
source's `grant(2)` followed by `release(2)` leaves `readable = 0`, not the
pre-call value 2 — occupancy is not restored. -/
theorem c7_counterexample :
    Spsc.BufferSource.advance ⟨⟨5, 0, 2⟩, 0⟩ 0 2 false 0 =
      Spsc.SourceAdvanceResult.ok ⟨5, 0, 2⟩ 2 ∧
    Spsc.BufferSource.advance ⟨⟨5, 0, 2⟩, 2⟩ 2 0 false 0 =
      Spsc.SourceAdvanceResult.ok ⟨5, 2, 2⟩ 0 ∧
    Spsc.State.readable_len ⟨5, 0, 2⟩ = 2 ∧
    Spsc.State.readable_len ⟨5, 2, 2⟩ = 0 ∧
    (2 : Nat) ≠ 0 := by decide

/-- C7 (amended): in the absence of counterparty progress, `grant(n)` leaves
the cursors and occupancy unchanged, and `release(n)` then moves exactly `n`
across: the source's release decreases `readable` by `n` and increases
`writable` by `n`, the sink's release does the opposite; in both cases the
sum `readable + writable` is restored to its pre-call value, but the
individual counts are not. -/
theorem c7_grant_release_moves_n
    (st : Spsc.State) (g n pending : Nat)
    (hC : 0 < st.size) (hh : st.head < st.size) (ht : st.tail < st.size)
    (hnr : n ≤ st.readable_len) (hnw : n ≤ st.writable_len) :
    Spsc.BufferSource.advance ⟨st, g⟩ 0 n false pending = .ok st n ∧
    Spsc.BufferSource.advance ⟨st, n⟩ n 0 false 0 =
      .ok (st.advance_head n) 0 ∧
    (st.advance_head n).readable_len = st.readable_len - n ∧
    (st.advance_head n).writable_len = st.writable_len + n ∧
    Spsc.BufferSink.advance ⟨st, g⟩ 0 n false pending =
      Spsc.SinkAdvanceResult.ok st n ∧
    Spsc.BufferSink.advance ⟨st, n⟩ n 0 false 0 =
      Spsc.SinkAdvanceResult.ok (st.advance_tail n) 0 ∧
    (st.advance_tail n).readable_len = st.readable_len + n ∧
    (st.advance_tail n).writable_len = st.writable_len - n ∧
    (st.advance_head n).readable_len + (st.advance_head n).writable_len =
      st.readable_len + st.writable_len ∧
    (st.advance_tail n).readable_len + (st.advance_tail n).writable_len =
      st.readable_len + st.writable_len := by
  have hrb : st.readable_len < st.size := Nat.mod_lt _ hC
  have hsz : ¬ n > st.size - 1 := by
    simp only [Spsc.State.writable_len] at hnw
    omega
  have h0g : ¬ (0 : Nat) > g := by omega
  have hnn : ¬ n > n := by omega
  have h0sz : ¬ (0 : Nat) > st.size - 1 := by omega
  have hrhead : (st.advance_head n).readable_len = st.readable_len - n := by
    show (st.tail + st.size - (st.head + n) % st.size) % st.size =
      st.readable_len - n
    rw [dist_head_advance st.size st.head st.tail n hC hh ht hnr]
    rfl
  have hrtail : (st.advance_tail n).readable_len = st.readable_len + n := by
    show ((st.tail + n) % st.size + st.size - st.head) % st.size =
      st.readable_len + n
    rw [dist_tail_advance st.size st.head st.tail n hC hh ht ?_]
    · rfl
    · simp only [Spsc.State.writable_len] at hnw
      have : (st.tail + st.size - st.head) % st.size = st.readable_len := rfl
      omega
  have hwhead : (st.advance_head n).writable_len = st.writable_len + n := by
    simp only [Spsc.State.writable_len, hrhead, advance_head_size]
    omega
  have hwtail : (st.advance_tail n).writable_len = st.writable_len - n := by
    simp only [Spsc.State.writable_len, hrtail, advance_tail_size]
    omega
  refine ⟨?_, ?_, hrhead, hwhead, ?_, ?_, hrtail, hwtail, ?_, ?_⟩
  · rw [Spsc.BufferSource.advance, if_neg h0g, if_neg hsz]
    show Spsc.sourceWait (st.advance_head 0) n false pending = .ok st n
    rw [advance_head_zero st hh, sourceWait_ge st n false pending hnr]
  · rw [Spsc.BufferSource.advance, if_neg hnn, if_neg h0sz]
    show Spsc.sourceWait (st.advance_head n) 0 false 0 =
      .ok (st.advance_head n) 0
    exact sourceWait_ge (st.advance_head n) 0 false 0 (Nat.zero_le _)
  · rw [Spsc.BufferSink.advance, if_neg h0g, if_neg hsz]
    show Spsc.sinkWait (st.advance_tail 0) n pending =
      Spsc.SinkAdvanceResult.ok st n
    rw [advance_tail_zero st ht, sinkWait_ge st n pending hnw]
  · rw [Spsc.BufferSink.advance, if_neg hnn, if_neg h0sz]
    show Spsc.sinkWait (st.advance_tail n) 0 0 =
      Spsc.SinkAdvanceResult.ok (st.advance_tail n) 0
    exact sinkWait_ge (st.advance_tail n) 0 0 (Nat.zero_le _)
  · rw [hrhead, hwhead]
    omega
  · rw [hrtail, hwtail]
    omega

/-- Witness for C7 (amended): capacity 7, `readable = 3`, `n = 2`. -/
theorem c7_grant_release_moves_n_witness :
    ((0 : Nat) < 7 ∧ (1 : Nat) < 7 ∧ (4 : Nat) < 7 ∧
     (2 : Nat) ≤ (⟨7, 1, 4⟩ : Spsc.State).readable_len ∧
     (2 : Nat) ≤ (⟨7, 1, 4⟩ : Spsc.State).writable_len) ∧
    (Spsc.BufferSource.advance ⟨⟨7, 1, 4⟩, 9⟩ 0 2 false 1 =
       .ok ⟨7, 1, 4⟩ 2 ∧
     Spsc.BufferSource.advance ⟨⟨7, 1, 4⟩, 2⟩ 2 0 false 0 =
       .ok (Spsc.State.advance_head ⟨7, 1, 4⟩ 2) 0 ∧
     (Spsc.State.advance_head ⟨7, 1, 4⟩ 2).readable_len =
       (⟨7, 1, 4⟩ : Spsc.State).readable_len - 2 ∧
     (Spsc.State.advance_head ⟨7, 1, 4⟩ 2).writable_len =
       (⟨7, 1, 4⟩ : Spsc.State).writable_len + 2 ∧
     Spsc.BufferSink.advance ⟨⟨7, 1, 4⟩, 9⟩ 0 2 false 1 =
       Spsc.SinkAdvanceResult.ok ⟨7, 1, 4⟩ 2 ∧
     Spsc.BufferSink.advance ⟨⟨7, 1, 4⟩, 2⟩ 2 0 false 0 =
       Spsc.SinkAdvanceResult.ok (Spsc.State.advance_tail ⟨7, 1, 4⟩ 2) 0 ∧
     (Spsc.State.advance_tail ⟨7, 1, 4⟩ 2).readable_len =
       (⟨7, 1, 4⟩ : Spsc.State).readable_len + 2 ∧
     (Spsc.State.advance_tail ⟨7, 1, 4⟩ 2).writable_len =
       (⟨7, 1, 4⟩ : Spsc.State).writable_len - 2 ∧
     (Spsc.State.advance_head ⟨7, 1, 4⟩ 2).readable_len +
         (Spsc.State.advance_head ⟨7, 1, 4⟩ 2).writable_len =
       (⟨7, 1, 4⟩ : Spsc.State).readable_len +
         (⟨7, 1, 4⟩ : Spsc.State).writable_len ∧
     (Spsc.State.advance_tail ⟨7, 1, 4⟩ 2).readable_len +
         (Spsc.State.advance_tail ⟨7, 1, 4⟩ 2).writable_len =
       (⟨7, 1, 4⟩ : Spsc.State).readable_len +
         (⟨7, 1, 4⟩ : Spsc.State).writable_len) :=
  ⟨⟨by decide, by decide, by decide, by decide, by decide⟩,
   c7_grant_release_moves_n ⟨7, 1, 4⟩ 9 2 1 (by decide) (by decide)
     (by decide) (by decide) (by decide)⟩

/-! ### C8: construction -/

/-- C8: `buffer(0)` panics (the `assert!(min_size > 0)`); for `min_size ≥ 1`
construction returns a sink and source sharing one ring state of capacity
`C = allocLen / 2 ≥ min_size + 1` with `head = tail = 0`, so `readable = 0`
and `writable = C - 1` initially. -/
theorem c8_construction
    (minSize allocLen : Nat) (halloc : 2 * (minSize + 1) ≤ allocLen) :
    Spsc.buffer 0 allocLen = Option.none ∧
    (0 < minSize →
      Spsc.buffer minSize allocLen =
        some (⟨Spsc.State.new minSize allocLen, 0⟩,
              ⟨Spsc.State.new minSize allocLen, 0⟩) ∧
      minSize + 1 ≤ (Spsc.State.new minSize allocLen).size ∧
      (Spsc.State.new minSize allocLen).head = 0 ∧
      (Spsc.State.new minSize allocLen).tail = 0 ∧
      (Spsc.State.new minSize allocLen).readable_len = 0 ∧
      (Spsc.State.new minSize allocLen).writable_len =
        (Spsc.State.new minSize allocLen).size - 1) := by
  constructor
  · rfl
  · intro hpos
    refine ⟨?_, ?_, rfl, rfl, ?_, ?_⟩
    · rw [Spsc.buffer, if_pos hpos]
    · have h1 : (2 * (minSize + 1)) / 2 ≤ allocLen / 2 :=
        Nat.div_le_div_right halloc
      have h2 : (2 * (minSize + 1)) / 2 = minSize + 1 := by omega
      show minSize + 1 ≤ allocLen / 2
      omega
    · show (0 + allocLen / 2 - 0) % (allocLen / 2) = 0
      simp
    · show allocLen / 2 - (Spsc.State.new minSize allocLen).readable_len - 1 =
        allocLen / 2 - 1
      have : (Spsc.State.new minSize allocLen).readable_len = 0 := by
        show (0 + allocLen / 2 - 0) % (allocLen / 2) = 0
        simp
      rw [this]
      omega

/-- Witness for C8 at `min_size = 4` with the minimal allocation of 10
slots. -/
theorem c8_construction_witness :
    (2 * (4 + 1) ≤ 10) ∧
    (Spsc.buffer 0 10 = Option.none ∧
     (0 < 4 →
       Spsc.buffer 4 10 =
         some (⟨Spsc.State.new 4 10, 0⟩, ⟨Spsc.State.new 4 10, 0⟩) ∧
       4 + 1 ≤ (Spsc.State.new 4 10).size ∧
       (Spsc.State.new 4 10).head = 0 ∧
       (Spsc.State.new 4 10).tail = 0 ∧
       (Spsc.State.new 4 10).readable_len = 0 ∧
       (Spsc.State.new 4 10).writable_len = (Spsc.State.new 4 10).size - 1)) :=
  ⟨by decide, c8_construction 4 10 (by decide)⟩

/-! ### The SPMC global-head computation -/

/-- Unfolding of the heads fold on the empty list. -/
theorem findEarliest_nil (st : Buf.State) (c : Nat) (acc : Nat × Nat) :
    Buf.findEarliest st c [] acc = acc := rfl

/-- Unfolding of the heads fold on a cons. -/
theorem findEarliest_cons (st : Buf.State) (c h : Nat) (rest : List Nat)
    (acc : Nat × Nat) :
    Buf.findEarliest st c (h :: rest) acc =
      if st.distance c h < acc.2 then
        Buf.findEarliest st c rest (h, st.distance c h)
      else Buf.findEarliest st c rest acc := rfl

/-- The heads fold returns an accumulator that is a lower bound on every
distance in the list, never exceeds the initial accumulator, and is either
the initial accumulator or an element of the list paired with its
distance. -/
theorem findEarliest_spec (st : Buf.State) (c : Nat) :
    ∀ (l : List Nat) (acc : Nat × Nat),
      (Buf.findEarliest st c l acc).2 ≤ acc.2 ∧
      (∀ h ∈ l, (Buf.findEarliest st c l acc).2 ≤ st.distance c h) ∧
      (Buf.findEarliest st c l acc = acc ∨
        ((Buf.findEarliest st c l acc).1 ∈ l ∧
         (Buf.findEarliest st c l acc).2 =
           st.distance c (Buf.findEarliest st c l acc).1)) := by
  intro l
  induction l with
  | nil =>
    intro acc
    refine ⟨le_refl _, ?_, Or.inl rfl⟩
    intro h hmem
    exact absurd hmem (List.not_mem_nil h)
  | cons h rest ih =>
    intro acc
    rw [findEarliest_cons]
    by_cases hd : st.distance c h < acc.2
    · rw [if_pos hd]
      obtain ⟨h1, h2, h3⟩ := ih (h, st.distance c h)
      refine ⟨le_trans h1 (le_of_lt hd), ?_, ?_⟩
      · intro x hx
        rcases List.mem_cons.mp hx with hx | hx
        · subst hx
          exact h1
        · exact h2 x hx
      · rcases h3 with h3 | ⟨h3a, h3b⟩
        · rw [h3]
          exact Or.inr ⟨List.mem_cons_self h rest, rfl⟩
        · exact Or.inr ⟨List.mem_cons_of_mem h h3a, h3b⟩
    · rw [if_neg hd]
      obtain ⟨h1, h2, h3⟩ := ih acc
      refine ⟨h1, ?_, ?_⟩
      · intro x hx
        rcases List.mem_cons.mp hx with hx | hx
        · subst hx
          exact le_trans h1 (Nat.le_of_not_lt hd)
        · exact h2 x hx
      · rcases h3 with h3 | ⟨h3a, h3b⟩
        · exact Or.inl h3
        · exact Or.inr ⟨List.mem_cons_of_mem h h3a, h3b⟩

/-- The sequential global-head update picks a member of the heads list whose
distance from the current global head is minimal, and leaves tail and
capacity unchanged. -/
theorem updateGlobalHead_spec (st : Buf.State) (heads : List Nat)
    (hne : heads ≠ [])
    (hlt : ∀ h ∈ heads, st.distance st.head h < Buf.usizeMax) :
    (Buf.updateGlobalHead st heads).head ∈ heads ∧
    (∀ h ∈ heads,
      st.distance st.head (Buf.updateGlobalHead st heads).head ≤
        st.distance st.head h) ∧
    (Buf.updateGlobalHead st heads).tail = st.tail ∧
    (Buf.updateGlobalHead st heads).size = st.size := by
  obtain ⟨h0, hh0⟩ := List.exists_mem_of_ne_nil heads hne
  obtain ⟨h1, h2, h3⟩ :=
    findEarliest_spec st st.head heads (Buf.usizeMax, Buf.usizeMax)
  rcases h3 with h3 | ⟨h3a, h3b⟩
  · exfalso
    have hb := h2 h0 hh0
    have hx := hlt h0 hh0
    rw [h3] at hb
    exact absurd (lt_of_le_of_lt hb hx) (lt_irrefl _)
  · refine ⟨h3a, ?_, rfl, rfl⟩
    intro h hmem
    have := h2 h hmem
    rw [h3b] at this
    exact this

/-- The SPMC wait loop never changes the state it reports. -/
theorem spmcWait_state (gs : Buf.SpmcState) (head size : Nat) (d : Bool) :
    ∀ p, (Buf.spmcWait gs head size d p).state? = some gs := by
  have hfin : (Buf.spmcFinish gs head size).state? = some gs := by
    rw [Buf.spmcFinish]
    split_ifs <;> rfl
  intro p
  induction p with
  | zero =>
    show (if gs.state.distance head gs.state.tail < size then
          if d then Buf.spmcFinish gs head size else .suspend gs
        else Buf.spmcFinish gs head size).state? = some gs
    split_ifs <;> first | exact hfin | rfl
  | succ p ih =>
    show (if gs.state.distance head gs.state.tail < size then
          Buf.spmcWait gs head size d p
        else Buf.spmcFinish gs head size).state? = some gs
    split_ifs
    · exact ih
    · exact hfin

/-- A successful SPMC view is never empty: the `ok` outcome of the wait loop
always carries a positive size. -/
theorem spmcWait_ok_pos (gs : Buf.SpmcState) (head size : Nat) (d : Bool) :
    ∀ p gs' sz, Buf.spmcWait gs head size d p = .ok gs' sz → 0 < sz := by
  have hfin : ∀ gs' sz, Buf.spmcFinish gs head size = .ok gs' sz → 0 < sz := by
    intro gs' sz
    rw [Buf.spmcFinish]
    split_ifs with h0
    · intro hcontra
      exact absurd hcontra (by simp)
    · intro heq
      have : min (gs.state.distance head gs.state.tail) size = sz := by
        injection heq
      omega
  intro p
  induction p with
  | zero =>
    intro gs' sz
    show (if gs.state.distance head gs.state.tail < size then
          if d then Buf.spmcFinish gs head size else .suspend gs
        else Buf.spmcFinish gs head size) = .ok gs' sz → 0 < sz
    split_ifs
    · exact hfin gs' sz
    · intro hcontra
      exact absurd hcontra (by simp)
    · exact hfin gs' sz
  | succ p ih =>
    intro gs' sz
    show (if gs.state.distance head gs.state.tail < size then
          Buf.spmcWait gs head size d p
        else Buf.spmcFinish gs head size) = .ok gs' sz → 0 < sz
    split_ifs
    · exact ih gs' sz
    · exact hfin gs' sz

/-- A request for a view of size 0 always takes the `None` exit of the final
size computation. -/
theorem spmcWait_zero_size (gs : Buf.SpmcState) (head : Nat) (d : Bool) :
    ∀ p, Buf.spmcWait gs head 0 d p = .closed gs := by
  have hfin : Buf.spmcFinish gs head 0 = .closed gs := by
    rw [Buf.spmcFinish]
    simp
  intro p
  cases p with
  | zero =>
    show (if gs.state.distance head gs.state.tail < 0 then
          if d then Buf.spmcFinish gs head 0 else .suspend gs
        else Buf.spmcFinish gs head 0) = .closed gs
    rw [if_neg (Nat.not_lt_zero _)]
    exact hfin
  | succ p =>
    show (if gs.state.distance head gs.state.tail < 0 then
          Buf.spmcWait gs head 0 d p
        else Buf.spmcFinish gs head 0) = .closed gs
    rw [if_neg (Nat.not_lt_zero _)]
    exact hfin

/-- C4: after an SPMC consumer release, the global head cursor equals the
personal head of the slowest live consumer — a member of the (updated) heads
list whose distance from the previous global head is minimal — so the global
head never advances past a position some live consumer has not reached.  The
tail is untouched. -/
theorem c4_global_head_is_slowest
    (gs : Buf.SpmcState) (i selfSize advance size pending : Nat)
    (sinkDropped : Bool)
    (hC : 0 < gs.state.size) (hmax : gs.state.size ≤ Buf.usizeMax)
    (hi : i < gs.heads.length)
    (hadv : advance ≤ selfSize) (hsz : size ≤ gs.state.size - 1) :
    ∃ gs', (Buf.SourceImpl.advanceMulti gs i selfSize advance size
        sinkDropped pending).state? = some gs' ∧
      gs'.heads =
        gs.heads.set i (gs.state.advance_value advance (gs.heads.getD i 0)) ∧
      gs'.state.head ∈ gs'.heads ∧
      (∀ h ∈ gs'.heads,
        gs.state.distance gs.state.head gs'.state.head ≤
          gs.state.distance gs.state.head h) ∧
      gs'.state.tail = gs.state.tail := by
  have h1 : ¬ advance > selfSize := Nat.not_lt.mpr hadv
  have h2 : ¬ size > gs.state.size - 1 := Nat.not_lt.mpr hsz
  set myHead := gs.state.advance_value advance (gs.heads.getD i 0) with hmy
  set heads := gs.heads.set i myHead with hheads
  have hne : heads ≠ [] := by
    intro hcontra
    have : heads.length = 0 := by rw [hcontra]; rfl
    rw [hheads, List.length_set] at this
    omega
  have hemp : heads.isEmpty = false := by
    cases hh : heads with
    | nil => exact absurd hh hne
    | cons a l => rfl
  have hlt : ∀ h ∈ heads, gs.state.distance gs.state.head h < Buf.usizeMax :=
    fun h _ =>
      lt_of_lt_of_le (Nat.mod_lt _ hC) hmax
  obtain ⟨hmem, hmin, htail, hsize⟩ := updateGlobalHead_spec gs.state heads
    hne hlt
  refine ⟨⟨Buf.updateGlobalHead gs.state heads, heads⟩, ?_, rfl, hmem, hmin,
    htail⟩
  rw [Buf.SourceImpl.advanceMulti, if_neg h1, if_neg h2]
  show (if heads.isEmpty then Buf.SpmcAdvanceResult.panic
      else Buf.spmcWait ⟨Buf.updateGlobalHead gs.state heads, heads⟩ myHead
        size sinkDropped pending).state? =
    some ⟨Buf.updateGlobalHead gs.state heads, heads⟩
  rw [hemp]
  show (Buf.spmcWait ⟨Buf.updateGlobalHead gs.state heads, heads⟩ myHead
      size sinkDropped pending).state? =
    some ⟨Buf.updateGlobalHead gs.state heads, heads⟩
  exact spmcWait_state _ _ _ _ _

/-- Witness for C4: capacity 5, global head 0, heads `[2, 1]`; consumer 0
releases 1 element, moving its head to 3; the global head advances to 1, the
slowest consumer's position. -/
theorem c4_global_head_is_slowest_witness :
    ((0 : Nat) < 5 ∧ (5 : Nat) ≤ Buf.usizeMax ∧ (0 : Nat) < 2 ∧
     (1 : Nat) ≤ 1 ∧ (2 : Nat) ≤ 5 - 1) ∧
    (∃ gs', (Buf.SourceImpl.advanceMulti ⟨⟨5, 0, 3⟩, [2, 1]⟩ 0 1 1 2
        false 0).state? = some gs' ∧
      gs'.heads =
        ([2, 1] : List Nat).set 0
          (Buf.State.advance_value ⟨5, 0, 3⟩ 1 (([2, 1] : List Nat).getD 0 0)) ∧
      gs'.state.head ∈ gs'.heads ∧
      (∀ h ∈ gs'.heads,
        Buf.State.distance ⟨5, 0, 3⟩ 0 gs'.state.head ≤
          Buf.State.distance ⟨5, 0, 3⟩ 0 h) ∧
      gs'.state.tail = 3) :=
  ⟨⟨by decide, by norm_num [Buf.usizeMax], by decide, by decide, by decide⟩,
   c4_global_head_is_slowest ⟨⟨5, 0, 3⟩, [2, 1]⟩ 0 1 1 2 0 false (by decide)
     (by norm_num [Buf.usizeMax]) (by decide) (by decide) (by decide)⟩

/-- C5: cloning an SPMC source yields a source positioned at the cloner's
current personal head: the new head atom is initialised to the cloner's head
value and pushed onto the shared heads list; a fresh capacity-1 notification
channel is created, and its sender is pushed onto the shared sender list
exactly when the weak reference to the sink's list still upgrades. -/
theorem c5_clone_at_current_position (shared : Buf.SpmcShared)
    (myHead newSenderId : Nat) :
    (Buf.cloneSource shared myHead newSenderId).newHead = myHead ∧
    (Buf.cloneSource shared myHead newSenderId).shared.heads =
      shared.heads ++ [myHead] ∧
    (Buf.cloneSource shared myHead newSenderId).newChannelCapacity = 1 ∧
    (Buf.cloneSource shared myHead newSenderId).shared.senders =
      (if shared.sendersAlive then shared.senders ++ [newSenderId]
       else shared.senders) :=
  ⟨rfl, rfl, rfl, rfl⟩

/-- C9: in the SPMC source's advance, a final computed view size of 0 yields
the `None` result: a grant request for 0 elements resolves to `None` even
with the sink alive and the stream open, and conversely a successful (`ok`)
outcome always carries a positive size — an empty grant is indistinguishable
from a closed stream at this interface. -/
theorem c9_empty_view_reports_none
    (gs : Buf.SpmcState) (i selfSize advance size pending : Nat)
    (sinkDropped : Bool)
    (hadv : advance ≤ selfSize) (hsz : size ≤ gs.state.size - 1)
    (hi : i < gs.heads.length) :
    (∃ gs', Buf.SourceImpl.advanceMulti gs i selfSize advance 0 false
        pending = .closed gs') ∧
    (∀ gs' sz, Buf.SourceImpl.advanceMulti gs i selfSize advance size
        sinkDropped pending = .ok gs' sz → 0 < sz) := by
  have h1 : ¬ advance > selfSize := Nat.not_lt.mpr hadv
  have h2 : ¬ size > gs.state.size - 1 := Nat.not_lt.mpr hsz
  have h0 : ¬ (0 : Nat) > gs.state.size - 1 := by omega
  set myHead := gs.state.advance_value advance (gs.heads.getD i 0) with hmy
  set heads := gs.heads.set i myHead with hheads
  have hne : heads ≠ [] := by
    intro hcontra
    have : heads.length = 0 := by rw [hcontra]; rfl
    rw [hheads, List.length_set] at this
    omega
  have hemp : heads.isEmpty = false := by
    cases hh : heads with
    | nil => exact absurd hh hne
    | cons a l => rfl
  constructor
  · refine ⟨⟨Buf.updateGlobalHead gs.state heads, heads⟩, ?_⟩
    rw [Buf.SourceImpl.advanceMulti, if_neg h1, if_neg h0]
    show (if heads.isEmpty then Buf.SpmcAdvanceResult.panic
        else Buf.spmcWait ⟨Buf.updateGlobalHead gs.state heads, heads⟩ myHead
          0 false pending) =
      .closed ⟨Buf.updateGlobalHead gs.state heads, heads⟩
    rw [hemp]
    show Buf.spmcWait ⟨Buf.updateGlobalHead gs.state heads, heads⟩ myHead
        0 false pending =
      .closed ⟨Buf.updateGlobalHead gs.state heads, heads⟩
    exact spmcWait_zero_size _ _ _ _
  · intro gs' sz
    rw [Buf.SourceImpl.advanceMulti, if_neg h1, if_neg h2]
    show (if heads.isEmpty then Buf.SpmcAdvanceResult.panic
        else Buf.spmcWait ⟨Buf.updateGlobalHead gs.state heads, heads⟩ myHead
          size sinkDropped pending) = .ok gs' sz → 0 < sz
    rw [hemp]
    show Buf.spmcWait ⟨Buf.updateGlobalHead gs.state heads, heads⟩ myHead
        size sinkDropped pending = .ok gs' sz → 0 < sz
    exact spmcWait_ok_pos _ _ _ _ _ _ _

/-- Witness for C9: a zero-element grant on an open capacity-5 SPMC buffer
with one readable element returns the `None` result. -/
theorem c9_empty_view_reports_none_witness :
    ((1 : Nat) ≤ 1 ∧ (2 : Nat) ≤ 5 - 1 ∧ (0 : Nat) < 2) ∧
    ((∃ gs', Buf.SourceImpl.advanceMulti ⟨⟨5, 0, 3⟩, [2, 1]⟩ 0 1 1 0 false 0 =
        .closed gs') ∧
     (∀ gs' sz, Buf.SourceImpl.advanceMulti ⟨⟨5, 0, 3⟩, [2, 1]⟩ 0 1 1 2
        false 0 = .ok gs' sz → 0 < sz)) :=
  ⟨⟨by decide, by decide, by decide⟩,
   c9_empty_view_reports_none ⟨⟨5, 0, 3⟩, [2, 1]⟩ 0 1 1 2 0 false (by decide)
     (by decide) (by decide)⟩

end Rivulet
